import Mathlib

/-!
# Verification of the ExpenseTracker ledger (src/script.js)

A shallow embedding of the ledger logic of the `ExpenseTracker` class:
input trimming and validation, amount parsing and sign policy,
transaction construction, removal by identifier, derived totals, and the
round trip through the localStorage persistence collaborator.

Modelling conventions:
* JavaScript numbers are modelled as rationals (`ℚ`); the claims under
  study involve only exact decimal arithmetic, so no rounding behaviour
  of binary floating point is relevant to them.  The special values
  `Infinity`/`-Infinity` (accepted by `parseFloat` for the literal
  spelling "Infinity") are outside the model.
* `localStorage` holds strings; each cell is modelled by the outcome of
  `JSON.parse` on its content: `absent` (a `getItem` miss, which
  `JSON.parse` coerces to the string "null"), `val v` (a string parsing
  to the JSON value `v`), or `malformed` (a string on which `JSON.parse`
  raises a SyntaxError).  `JSON.stringify` of a produced snapshot yields
  a string that parses back to an equal value, per the JSON builtins.
* DOM access and rendering are outside the ledger state and not
  modelled; form inputs appear as explicit arguments.
-/

/-- JavaScript whitespace as recognised by `String.prototype.trim`:
ASCII whitespace, NBSP, BOM, the Unicode space separators and the line
separators. -/
def jsWhitespace (c : Char) : Bool :=
  c = ' ' ∨ c = '\t' ∨ c = '\n' ∨ c = '\r' ∨
  c.toNat = 0x0b ∨ c.toNat = 0x0c ∨ c.toNat = 0xa0 ∨ c.toNat = 0x1680 ∨
  (0x2000 ≤ c.toNat ∧ c.toNat ≤ 0x200a) ∨
  c.toNat = 0x2028 ∨ c.toNat = 0x2029 ∨ c.toNat = 0x202f ∨
  c.toNat = 0x205f ∨ c.toNat = 0x3000 ∨ c.toNat = 0xfeff

/-- Model of `String.prototype.trim`: remove leading and trailing
JavaScript whitespace. -/
def jsTrim (s : String) : String :=
  String.mk (((s.data.dropWhile jsWhitespace).reverse.dropWhile jsWhitespace).reverse)

/-- Numeric value of a list of decimal digit characters. -/
def digitsVal (ds : List Char) : ℕ :=
  ds.foldl (fun a c => 10 * a + (c.toNat - 48)) 0

/-- Ten to an integer power, as a rational. -/
def pow10 (e : ℤ) : ℚ :=
  if 0 ≤ e then ((10 : ℚ) ^ e.toNat) else ((10 : ℚ) ^ (-e).toNat)⁻¹

/-- The pieces of a numeric literal prefix recognised by `parseFloat`:
sign, integer-part digits, fraction-part digits, exponent. -/
structure NumParts where
  neg : Bool
  ip : List Char
  fp : List Char
  exp : ℤ
deriving DecidableEq, Repr

/-- Lexing phase of the `parseFloat` model: read the longest prefix of
the form `sign? digits* (. digits*)? ((e|E) sign? digits+)?` containing
at least one mantissa digit, ignoring trailing garbage; `none` when no
such prefix exists. -/
def lexFloat (cs : List Char) : Option NumParts :=
  let sgn : Bool × List Char :=
    match cs with
    | '-' :: r => (true, r)
    | '+' :: r => (false, r)
    | _ => (false, cs)
  let ip := sgn.2.takeWhile Char.isDigit
  let rest1 := sgn.2.dropWhile Char.isDigit
  let fp : List Char × List Char :=
    match rest1 with
    | '.' :: r => (r.takeWhile Char.isDigit, r.dropWhile Char.isDigit)
    | _ => ([], rest1)
  if ip.isEmpty ∧ fp.1.isEmpty then none
  else
    let e : ℤ :=
      match fp.2 with
      | c :: r =>
        if c = 'e' ∨ c = 'E' then
          match r with
          | '+' :: r2 =>
            let ed := r2.takeWhile Char.isDigit
            if ed.isEmpty then 0 else (digitsVal ed : ℤ)
          | '-' :: r2 =>
            let ed := r2.takeWhile Char.isDigit
            if ed.isEmpty then 0 else -(digitsVal ed : ℤ)
          | _ =>
            let ed := r.takeWhile Char.isDigit
            if ed.isEmpty then 0 else (digitsVal ed : ℤ)
        else 0
      | [] => 0
    some ⟨sgn.1, ip, fp.1, e⟩

/-- Numeric value of a lexed literal. -/
def partsVal (p : NumParts) : ℚ :=
  (if p.neg then (-1 : ℚ) else 1) *
    ((digitsVal p.ip : ℚ) + (digitsVal p.fp : ℚ) / (10 : ℚ) ^ p.fp.length) *
    pow10 p.exp

/-- Model of the JavaScript builtin `parseFloat`: skip leading
whitespace, lex the longest numeric prefix and evaluate it; `none`
models the result `NaN` (no parsable prefix).  The literal "Infinity"
is outside the model (see the module docstring). -/
def parseFloat (s : String) : Option ℚ :=
  (lexFloat (s.data.dropWhile jsWhitespace)).map partsVal

/-- Model of the JavaScript builtin `Math.abs` on (finite) numbers. -/
def mathAbs (x : ℚ) : ℚ :=
  if x < 0 then -x else x

/-- JSON values, the data held by the persistence collaborator after
parsing (and the shape `JSON.stringify` serializes). -/
inductive Json where
  | null
  | bool (b : Bool)
  | num (q : ℚ)
  | str (s : String)
  | arr (elems : List Json)
  | obj (fields : List (String × Json))

/-- JavaScript truthiness of a parsed JSON value, as used by the
`JSON.parse(...) || []` fallback on src/script.js lines 25-26. -/
def jsTruthy : Json → Bool
  | Json.null => false
  | Json.bool b => b
  | Json.num q => if q = 0 then false else true
  | Json.str s => if s = "" then false else true
  | Json.arr _ => true
  | Json.obj _ => true

/-- One localStorage cell, modelled by the outcome of `JSON.parse` on
its content: `absent` is a `getItem` miss (JavaScript passes `null` to
`JSON.parse`, which coerces it to the string "null"), `val v` is a
stored string that parses to the JSON value `v`, and `malformed` is a
stored string on which `JSON.parse` raises a SyntaxError. -/
inductive Stored where
  | absent
  | val (v : Json)
  | malformed

/-- The error JSON.parse raises on malformed input (a SyntaxError). -/
inductive JsError where
  | parseRaised
deriving DecidableEq, Repr

/-- Outcome of `JSON.parse(localStorage.getItem(key))` on a cell. -/
def jsonParseCell : Stored → Except JsError Json
  | Stored.absent => Except.ok Json.null
  | Stored.val v => Except.ok v
  | Stored.malformed => Except.error JsError.parseRaised

/-- Model of `JSON.parse(localStorage.getItem(key)) || []`
(src/script.js lines 25-26): a falsy parse result is replaced by the
empty array; a parse failure propagates (the constructor throws). -/
def loadCollection (c : Stored) : Except JsError Json :=
  (jsonParseCell c).map (fun v => if jsTruthy v then v else Json.arr [])

/-- A transaction record as constructed on src/script.js lines 104-109:
identifier (`Date.now()`), label text, signed amount, category. -/
structure Transaction where
  id : ℚ
  text : String
  amount : ℚ
  category : String
deriving DecidableEq, Repr

/-- The ledger state owned by the tracker: the ordered transaction
sequence and the known category labels. -/
structure LedgerState where
  transactions : List Transaction
  categories : List String
deriving DecidableEq, Repr

/-- The two localStorage cells the tracker uses. -/
structure Store where
  transactionsCell : Stored
  categoriesCell : Stored

/-- JSON encoding of one transaction, mirroring `JSON.stringify` on the
object literal of src/script.js lines 104-109 (field order id, text,
amount, category). -/
def encodeTransaction (t : Transaction) : Json :=
  Json.obj [("id", Json.num t.id), ("text", Json.str t.text),
            ("amount", Json.num t.amount), ("category", Json.str t.category)]

/-- JSON encoding of the transactions array. -/
def encodeTransactions (ts : List Transaction) : Json :=
  Json.arr (ts.map encodeTransaction)

/-- Look up a field of a JSON object (JavaScript property access). -/
def getField (fields : List (String × Json)) (k : String) : Option Json :=
  (fields.find? (fun f => f.1 = k)).map (fun f => f.2)

/-- Read a transaction record back from a JSON value, by the property
accesses the code performs on loaded records (`t.id`, `t.text`,
`t.amount`, `t.category`). -/
def decodeTransaction : Json → Option Transaction
  | Json.obj fields =>
    match getField fields "id", getField fields "text",
          getField fields "amount", getField fields "category" with
    | some (Json.num i), some (Json.str tx), some (Json.num a), some (Json.str c) =>
      some ⟨i, tx, a, c⟩
    | _, _, _, _ => none
  | _ => none

/-- Read the transactions array back from a JSON value. -/
def decodeTransactions : Json → Option (List Transaction)
  | Json.arr elems => elems.mapM decodeTransaction
  | _ => none

/-- Read the categories array back from a JSON value. -/
def decodeCategories : Json → Option (List String)
  | Json.arr elems => elems.mapM (fun j => match j with
      | Json.str s => some s
      | _ => none)
  | _ => none

/-- Model of the constructor's restoration (src/script.js lines 25-26):
parse both cells with the `|| []` fallback.  The result pairs the raw
JSON values assigned to `this.transactions` and `this.categories`; a
SyntaxError from either `JSON.parse` propagates. -/
def loadState (store : Store) : Except JsError (Json × Json) :=
  match loadCollection store.transactionsCell, loadCollection store.categoriesCell with
  | Except.ok tj, Except.ok cj => Except.ok (tj, cj)
  | Except.error e, _ => Except.error e
  | _, Except.error e => Except.error e

/-- The constructor's restoration read back at the `Transaction` level:
`load` followed by the record accesses the class performs. -/
def loadTyped (store : Store) : Option LedgerState :=
  match loadState store with
  | Except.ok (tj, cj) =>
    match decodeTransactions tj, decodeCategories cj with
    | some ts, some cs => some ⟨ts, cs⟩
    | _, _ => none
  | Except.error _ => none

/-- The categories half of `loadTyped`, used to state that a store is
consistent with the in-memory category list. -/
def loadCategoriesTyped (c : Stored) : Option (List String) :=
  match loadCollection c with
  | Except.ok cj => decodeCategories cj
  | Except.error _ => none

/-- Model of `updateLocalStorage` (src/script.js lines 192-194): only
the transactions cell is written, with the stringified snapshot; the
categories cell is untouched. -/
def updateLocalStorage (st : LedgerState) (store : Store) : Store :=
  { store with transactionsCell := Stored.val (encodeTransactions st.transactions) }

/-- The two validation failures of `addTransaction` (src/script.js
lines 90-98): blank label or amount after trimming, and an amount that
parses to NaN. -/
inductive ValidationError where
  | EmptyInput
  | InvalidNumber
deriving DecidableEq, Repr

/-- Category resolution of src/script.js lines 101-108: the select
value when the element exists and its value is non-empty, else the
sentinel "Uncategorized". -/
def resolveCategory (catSel : Option String) : String :=
  let categoryValue :=
    match catSel with
    | some v => if v = "" then "" else v
    | none => ""
  if categoryValue = "" then "Uncategorized" else categoryValue

/-- Model of `addTransaction` (src/script.js lines 86-119) as a state
transformer.  Arguments: current ledger state and store, the
`Date.now()` reading, the raw label and amount field contents, the
selected kind (`getSelectedTransactionType`), and the category select
value (`none` models a missing select element).  Returns the new state,
the new store, and the outcome reported to the caller; on a validation
failure the method returns early, before any mutation. -/
def addTransaction (st : LedgerState) (store : Store) (now : ℚ)
    (textRaw amountRaw kind : String) (catSel : Option String) :
    LedgerState × Store × Except ValidationError Transaction :=
  let text := jsTrim textRaw
  let amountValue := jsTrim amountRaw
  if text = "" ∨ amountValue = "" then
    (st, store, Except.error ValidationError.EmptyInput)
  else
    match parseFloat amountValue with
    | none => (st, store, Except.error ValidationError.InvalidNumber)
    | some x =>
      let amount := if kind = "expense" then -(mathAbs x) else mathAbs x
      let category := resolveCategory catSel
      let t : Transaction := ⟨now, text, amount, category⟩
      let st' : LedgerState := ⟨st.transactions ++ [t], st.categories⟩
      (st', updateLocalStorage st' store, Except.ok t)

/-- Model of `removeTransaction` (src/script.js lines 164-169): filter
the sequence by identifier, then persist. -/
def removeTransaction (st : LedgerState) (store : Store) (id : ℚ) :
    LedgerState × Store :=
  let st' : LedgerState := ⟨st.transactions.filter (fun t => decide (t.id ≠ id)), st.categories⟩
  (st', updateLocalStorage st' store)

/-- Model of the totals computed by `updateValues` (src/script.js
lines 174-187): running balance, income (sum of the strictly positive
amounts) and expense (sum of the strictly negative amounts, sign
retained). -/
def computeTotals (transactions : List Transaction) : ℚ × ℚ × ℚ :=
  let amounts := transactions.map (fun t => t.amount)
  let total := amounts.foldl (fun acc item => acc + item) 0
  let income := (amounts.filter (fun item => decide (item > 0))).foldl (fun acc item => acc + item) 0
  let expense := (amounts.filter (fun item => decide (item < 0))).foldl (fun acc item => acc + item) 0
  (total, income, expense)

/-- One user action on the tracker. -/
inductive Op where
  | add (now : ℚ) (textRaw amountRaw kind : String) (catSel : Option String)
  | remove (id : ℚ)

/-- Apply one action to the ledger state and store. -/
def applyOp (p : LedgerState × Store) (op : Op) : LedgerState × Store :=
  match op with
  | Op.add now textRaw amountRaw kind catSel =>
    let r := addTransaction p.1 p.2 now textRaw amountRaw kind catSel
    (r.1, r.2.1)
  | Op.remove id => removeTransaction p.1 p.2 id

/-- Apply a sequence of actions. -/
def applyOps (p : LedgerState × Store) (ops : List Op) : LedgerState × Store :=
  ops.foldl applyOp p

/-- The `Date.now()` readings consumed by the add actions of a
sequence. -/
def addNows : List Op → List ℚ
  | [] => []
  | Op.add now _ _ _ _ :: ops => now :: addNows ops
  | Op.remove _ :: ops => addNows ops

/-- The empty ledger (a fresh tracker with nothing persisted). -/
def emptyLedger : LedgerState := ⟨[], []⟩

/-- A store with nothing persisted (first visit). -/
def emptyStore : Store := ⟨Stored.absent, Stored.absent⟩

/-- The transaction sequence of the totals example in the design
document: amounts +100, -40, -10. -/
def exampleTransactions : List Transaction :=
  [⟨1, "pay", 100, "Uncategorized"⟩, ⟨2, "food", -40, "Uncategorized"⟩,
   ⟨3, "bus", -10, "Uncategorized"⟩]

theorem mathAbs_eq_abs (x : ℚ) : mathAbs x = |x| := by
  rw [mathAbs, abs]
  rcases le_or_lt 0 x with h | h
  · rw [if_neg (not_lt.mpr h)]
    exact (max_eq_left (le_trans (neg_nonpos.mpr h) h)).symm
  · rw [if_pos h]
    exact (max_eq_right (le_trans h.le (neg_nonneg.mpr h.le))).symm

/-- C1: the constructor's restoration substitutes the empty collection
when a cell is absent (and, more generally, whenever the parse result
is falsy), but a malformed cell makes `JSON.parse` raise, and the error
propagates: restoration is not total.  This is the amended form of the
claim; the original "never fails" half is refuted by
`loadState_malformed_raises_cex`. -/
theorem loadCollection_absent_empty_malformed_raises (c : Stored) :
    (c = Stored.absent → loadCollection c = Except.ok (Json.arr [])) ∧
    (∀ v, c = Stored.val v → jsTruthy v = false → loadCollection c = Except.ok (Json.arr [])) ∧
    (c = Stored.malformed → loadCollection c = Except.error JsError.parseRaised) := by
  refine ⟨fun h => ?_, fun v h hv => ?_, fun h => ?_⟩
  · subst h; rfl
  · subst h
    simp [loadCollection, jsonParseCell, Except.map, hv]
  · subst h; rfl

/-- C1 witness: the empty-substitution and raising behaviours at
concrete cells. -/
theorem loadCollection_absent_empty_malformed_raises_witness :
    loadCollection Stored.absent = Except.ok (Json.arr []) ∧
    loadCollection (Stored.val Json.null) = Except.ok (Json.arr []) ∧
    loadCollection Stored.malformed = Except.error JsError.parseRaised :=
  ⟨(loadCollection_absent_empty_malformed_raises Stored.absent).1 rfl,
   (loadCollection_absent_empty_malformed_raises (Stored.val Json.null)).2.1 Json.null rfl rfl,
   (loadCollection_absent_empty_malformed_raises Stored.malformed).2.2 rfl⟩

/-- C1 counterexample: a store whose transactions cell holds a
malformed string (for example the stored string "\x7b") makes the
constructor's restoration raise instead of substituting an empty
sequence, refuting "the operation never fails for any stored
string". -/
theorem loadState_malformed_raises_cex :
    loadState ⟨Stored.malformed, Stored.absent⟩ = Except.error JsError.parseRaised := rfl

theorem addTransaction_empty (st : LedgerState) (store : Store) (now : ℚ)
    (textRaw amountRaw kind : String) (catSel : Option String)
    (h : jsTrim textRaw = "" ∨ jsTrim amountRaw = "") :
    addTransaction st store now textRaw amountRaw kind catSel =
      (st, store, Except.error ValidationError.EmptyInput) := by
  simp only [addTransaction]
  rw [if_pos h]

theorem addTransaction_invalid (st : LedgerState) (store : Store) (now : ℚ)
    (textRaw amountRaw kind : String) (catSel : Option String)
    (h : ¬(jsTrim textRaw = "" ∨ jsTrim amountRaw = ""))
    (hp : parseFloat (jsTrim amountRaw) = none) :
    addTransaction st store now textRaw amountRaw kind catSel =
      (st, store, Except.error ValidationError.InvalidNumber) := by
  simp only [addTransaction]
  rw [if_neg h, hp]

theorem addTransaction_success (st : LedgerState) (store : Store) (now : ℚ)
    (textRaw amountRaw kind : String) (catSel : Option String) (x : ℚ)
    (h : ¬(jsTrim textRaw = "" ∨ jsTrim amountRaw = ""))
    (hp : parseFloat (jsTrim amountRaw) = some x) :
    addTransaction st store now textRaw amountRaw kind catSel =
      ((⟨st.transactions ++
          [⟨now, jsTrim textRaw, if kind = "expense" then -(mathAbs x) else mathAbs x,
            resolveCategory catSel⟩],
         st.categories⟩ : LedgerState),
       updateLocalStorage
         ⟨st.transactions ++
            [⟨now, jsTrim textRaw, if kind = "expense" then -(mathAbs x) else mathAbs x,
              resolveCategory catSel⟩],
           st.categories⟩ store,
       Except.ok
         ⟨now, jsTrim textRaw, if kind = "expense" then -(mathAbs x) else mathAbs x,
           resolveCategory catSel⟩) := by
  simp only [addTransaction]
  rw [if_neg h, hp]

/-- C2: `addTransaction` reports `EmptyInput` exactly when the label or
the amount is blank after trimming; given both are non-blank it reports
`InvalidNumber` exactly when the amount does not parse as a number; and
otherwise it succeeds, returning the constructed transaction. -/
theorem addTransaction_validation (st : LedgerState) (store : Store) (now : ℚ)
    (textRaw amountRaw kind : String) (catSel : Option String) :
    ((addTransaction st store now textRaw amountRaw kind catSel).2.2 =
        Except.error ValidationError.EmptyInput ↔
      jsTrim textRaw = "" ∨ jsTrim amountRaw = "") ∧
    (jsTrim textRaw ≠ "" → jsTrim amountRaw ≠ "" →
      ((addTransaction st store now textRaw amountRaw kind catSel).2.2 =
          Except.error ValidationError.InvalidNumber ↔
        parseFloat (jsTrim amountRaw) = none)) ∧
    (jsTrim textRaw ≠ "" → jsTrim amountRaw ≠ "" →
      ∀ x, parseFloat (jsTrim amountRaw) = some x →
        ∃ t, (addTransaction st store now textRaw amountRaw kind catSel).2.2 = Except.ok t) := by
  by_cases h : jsTrim textRaw = "" ∨ jsTrim amountRaw = ""
  · rw [addTransaction_empty st store now textRaw amountRaw kind catSel h]
    refine ⟨by simp [h], fun h1 h2 => absurd h (by simp [h1, h2]),
      fun h1 h2 => absurd h (by simp [h1, h2])⟩
  · cases hp : parseFloat (jsTrim amountRaw) with
    | none =>
      rw [addTransaction_invalid st store now textRaw amountRaw kind catSel h hp]
      refine ⟨by simp [h], fun _ _ => by simp, fun h1 h2 x hx => ?_⟩
      exact absurd hx (by simp)
    | some x =>
      rw [addTransaction_success st store now textRaw amountRaw kind catSel x h hp]
      exact ⟨by simp [h], fun _ _ => by simp [hp], fun h1 h2 y hy => ⟨_, rfl⟩⟩

/-- C2 witness: the design document's validation examples, plus a
successful call. -/
theorem addTransaction_validation_witness :
    ((addTransaction emptyLedger emptyStore 7 "" "5" "expense" none).2.2 =
        Except.error ValidationError.EmptyInput) ∧
    ((addTransaction emptyLedger emptyStore 7 "Gift" "abc" "income" none).2.2 =
        Except.error ValidationError.InvalidNumber) ∧
    (∃ t, (addTransaction emptyLedger emptyStore 7 "Lunch" "5" "expense" none).2.2 =
        Except.ok t) := by
  refine ⟨?_, ?_, ?_⟩
  · exact (addTransaction_validation emptyLedger emptyStore 7 "" "5" "expense" none).1.mpr
      (Or.inl rfl)
  · exact ((addTransaction_validation emptyLedger emptyStore 7 "Gift" "abc" "income" none).2.1
      (by decide) (by decide)).mpr (by decide)
  · exact (addTransaction_validation emptyLedger emptyStore 7 "Lunch" "5" "expense" none).2.2
      (by decide) (by decide) (partsVal ⟨false, ['5'], [], 0⟩) rfl

/-- C3: every `addTransaction` call either fails validation, leaving
the ledger state, the category list and the persisted store exactly as
they were, or succeeds, returning a transaction that is appended to the
sequence with the snapshot persisted. -/
theorem addTransaction_atomic (st : LedgerState) (store : Store) (now : ℚ)
    (textRaw amountRaw kind : String) (catSel : Option String) :
    (∀ e, (addTransaction st store now textRaw amountRaw kind catSel).2.2 = Except.error e →
      (addTransaction st store now textRaw amountRaw kind catSel).1 = st ∧
      (addTransaction st store now textRaw amountRaw kind catSel).2.1 = store) ∧
    (∀ t, (addTransaction st store now textRaw amountRaw kind catSel).2.2 = Except.ok t →
      (addTransaction st store now textRaw amountRaw kind catSel).1.transactions =
        st.transactions ++ [t] ∧
      (addTransaction st store now textRaw amountRaw kind catSel).1.categories =
        st.categories ∧
      (addTransaction st store now textRaw amountRaw kind catSel).2.1 =
        updateLocalStorage (addTransaction st store now textRaw amountRaw kind catSel).1
          store) := by
  by_cases h : jsTrim textRaw = "" ∨ jsTrim amountRaw = ""
  · rw [addTransaction_empty st store now textRaw amountRaw kind catSel h]
    exact ⟨fun e _ => ⟨rfl, rfl⟩, fun t ht => by simp at ht⟩
  · cases hp : parseFloat (jsTrim amountRaw) with
    | none =>
      rw [addTransaction_invalid st store now textRaw amountRaw kind catSel h hp]
      exact ⟨fun e _ => ⟨rfl, rfl⟩, fun t ht => by simp at ht⟩
    | some x =>
      rw [addTransaction_success st store now textRaw amountRaw kind catSel x h hp]
      refine ⟨fun e he => by simp at he, fun t ht => ?_⟩
      injection ht with ht
      subst ht
      exact ⟨rfl, rfl, rfl⟩

/-- C3 witness: a failing call at a concrete input changes neither the
ledger nor the store. -/
theorem addTransaction_atomic_witness :
    (addTransaction emptyLedger emptyStore 7 "" "5" "expense" none).1 = emptyLedger ∧
    (addTransaction emptyLedger emptyStore 7 "" "5" "expense" none).2.1 = emptyStore :=
  (addTransaction_atomic emptyLedger emptyStore 7 "" "5" "expense" none).1
    ValidationError.EmptyInput rfl

/-- C4: the computed balance is the sum of all amounts, income the sum
of the strictly positive amounts, expense the sum of the strictly
negative amounts with its sign retained; the amounts +100, -40, -10
yield balance 50, income 100, expense -50. -/
theorem computeTotals_sums (ts : List Transaction) :
    (computeTotals ts).1 = (ts.map (fun t => t.amount)).sum ∧
    (computeTotals ts).2.1 =
      ((ts.map (fun t => t.amount)).filter (fun a => decide (a > 0))).sum ∧
    (computeTotals ts).2.2 =
      ((ts.map (fun t => t.amount)).filter (fun a => decide (a < 0))).sum ∧
    computeTotals exampleTransactions = (50, 100, -50) := by
  have hfold : ∀ l : List ℚ, List.foldl (fun acc item => acc + item) 0 l = l.sum := by
    intro l
    rw [List.sum_eq_foldl]
  have hb : ∀ us : List Transaction,
      (computeTotals us).1 = (us.map (fun t => t.amount)).sum := by
    intro us
    simp only [computeTotals]
    exact hfold _
  have hi : ∀ us : List Transaction, (computeTotals us).2.1 =
      ((us.map (fun t => t.amount)).filter (fun a => decide (a > 0))).sum := by
    intro us
    simp only [computeTotals]
    exact hfold _
  have he : ∀ us : List Transaction, (computeTotals us).2.2 =
      ((us.map (fun t => t.amount)).filter (fun a => decide (a < 0))).sum := by
    intro us
    simp only [computeTotals]
    exact hfold _
  refine ⟨hb ts, hi ts, he ts, ?_⟩
  have hmap : exampleTransactions.map (fun t => t.amount) = [100, -40, -10] := by decide
  have hpos : ([100, -40, -10] : List ℚ).filter (fun a => decide (a > 0)) = [100] := by decide
  have hneg : ([100, -40, -10] : List ℚ).filter (fun a => decide (a < 0)) = [-40, -10] := by
    decide
  have e1 : (computeTotals exampleTransactions).1 = 50 := by
    rw [hb exampleTransactions, hmap]
    simp only [List.sum_cons, List.sum_nil]
    norm_num
  have e2 : (computeTotals exampleTransactions).2.1 = 100 := by
    rw [hi exampleTransactions, hmap, hpos]
    simp only [List.sum_cons, List.sum_nil]
    norm_num
  have e3 : (computeTotals exampleTransactions).2.2 = -50 := by
    rw [he exampleTransactions, hmap, hneg]
    simp only [List.sum_cons, List.sum_nil]
    norm_num
  have hsplit : computeTotals exampleTransactions =
      ((computeTotals exampleTransactions).1, (computeTotals exampleTransactions).2.1,
        (computeTotals exampleTransactions).2.2) := rfl
  rw [hsplit, e1, e2, e3]

/-- C5: a successfully added transaction stores the absolute value of
the parsed amount, negated exactly when the kind is "expense"; in
particular "3.50" as an expense is stored as -3.50 and "1000" as income
as +1000. -/
theorem addTransaction_sign_policy :
    (∀ (st : LedgerState) (store : Store) (now : ℚ) (textRaw amountRaw kind : String)
        (catSel : Option String) (x : ℚ) (t : Transaction),
      parseFloat (jsTrim amountRaw) = some x →
      (addTransaction st store now textRaw amountRaw kind catSel).2.2 = Except.ok t →
      t.amount = if kind = "expense" then -|x| else |x|) ∧
    (∃ t, (addTransaction emptyLedger emptyStore 1 "Coffee" "3.50" "expense" none).2.2 =
        Except.ok t ∧ t.amount = -(7/2)) ∧
    (∃ t, (addTransaction emptyLedger emptyStore 2 "Paycheck" "1000" "income" none).2.2 =
        Except.ok t ∧ t.amount = 1000) := by
  have hp350 : parseFloat (jsTrim "3.50") = some (7/2) := by
    have ht : jsTrim "3.50" = "3.50" := by decide
    have hl : lexFloat ("3.50".data.dropWhile jsWhitespace) =
        some ⟨false, ['3'], ['5', '0'], 0⟩ := by decide
    have h1 : digitsVal ['3'] = 3 := by decide
    have h2 : digitsVal ['5', '0'] = 50 := by decide
    rw [ht]
    simp [parseFloat, hl, partsVal, h1, h2, pow10]
    norm_num
  have hp1000 : parseFloat (jsTrim "1000") = some 1000 := by
    have ht : jsTrim "1000" = "1000" := by decide
    have hl : lexFloat ("1000".data.dropWhile jsWhitespace) =
        some ⟨false, ['1', '0', '0', '0'], [], 0⟩ := by decide
    have h1 : digitsVal ['1', '0', '0', '0'] = 1000 := by decide
    rw [ht]
    simp [parseFloat, hl, partsVal, h1, digitsVal, pow10]
  refine ⟨fun st store now textRaw amountRaw kind catSel x t hx hok => ?_, ?_, ?_⟩
  · by_cases h : jsTrim textRaw = "" ∨ jsTrim amountRaw = ""
    · rw [addTransaction_empty st store now textRaw amountRaw kind catSel h] at hok
      simp at hok
    · rw [addTransaction_success st store now textRaw amountRaw kind catSel x h hx] at hok
      injection hok with hok
      subst hok
      show (if kind = "expense" then -(mathAbs x) else mathAbs x) =
        if kind = "expense" then -|x| else |x|
      simp only [mathAbs_eq_abs]
  · have h : ¬(jsTrim "Coffee" = "" ∨ jsTrim "3.50" = "") := by decide
    rw [addTransaction_success emptyLedger emptyStore 1 "Coffee" "3.50" "expense" none (7/2)
      h hp350]
    refine ⟨_, rfl, ?_⟩
    show (if ("expense" : String) = "expense" then -(mathAbs (7/2)) else mathAbs (7/2)) = -(7/2)
    rw [if_pos rfl, mathAbs, if_neg (by norm_num : ¬(7/2 : ℚ) < 0)]
  · have h : ¬(jsTrim "Paycheck" = "" ∨ jsTrim "1000" = "") := by decide
    rw [addTransaction_success emptyLedger emptyStore 2 "Paycheck" "1000" "income" none 1000
      h hp1000]
    refine ⟨_, rfl, ?_⟩
    show (if ("income" : String) = "expense" then -(mathAbs 1000) else mathAbs 1000) = 1000
    rw [if_neg (by decide : ¬("income" : String) = "expense"), mathAbs,
      if_neg (by norm_num : ¬(1000 : ℚ) < 0)]

/-- C5 witness: the sign-policy equation instantiated at the concrete
"Coffee"/"3.50" expense call. -/
theorem addTransaction_sign_policy_witness :
    (⟨1, jsTrim "Coffee",
        if ("expense" : String) = "expense" then
          -(mathAbs (partsVal ⟨false, ['3'], ['5', '0'], 0⟩))
        else mathAbs (partsVal ⟨false, ['3'], ['5', '0'], 0⟩),
        resolveCategory none⟩ : Transaction).amount =
      if ("expense" : String) = "expense" then -|partsVal ⟨false, ['3'], ['5', '0'], 0⟩|
      else |partsVal ⟨false, ['3'], ['5', '0'], 0⟩| :=
  addTransaction_sign_policy.1 emptyLedger emptyStore 1 "Coffee" "3.50" "expense" none
    (partsVal ⟨false, ['3'], ['5', '0'], 0⟩)
    ⟨1, jsTrim "Coffee",
      if ("expense" : String) = "expense" then
        -(mathAbs (partsVal ⟨false, ['3'], ['5', '0'], 0⟩))
      else mathAbs (partsVal ⟨false, ['3'], ['5', '0'], 0⟩),
      resolveCategory none⟩
    rfl rfl

theorem applyOps_cons (p : LedgerState × Store) (op : Op) (ops : List Op) :
    applyOps p (op :: ops) = applyOps (applyOp p op) ops := rfl

theorem applyOp_add (st : LedgerState) (store : Store) (now : ℚ)
    (textRaw amountRaw kind : String) (catSel : Option String) :
    applyOp (st, store) (Op.add now textRaw amountRaw kind catSel) =
      ((addTransaction st store now textRaw amountRaw kind catSel).1,
       (addTransaction st store now textRaw amountRaw kind catSel).2.1) := rfl

theorem applyOp_remove (st : LedgerState) (store : Store) (id : ℚ) :
    applyOp (st, store) (Op.remove id) = removeTransaction st store id := rfl

/-- C7: removal is idempotent (on the ledger state and on the store),
and removing an identifier absent from the sequence leaves the sequence
unchanged. -/
theorem removeTransaction_idempotent (st : LedgerState) (store : Store) (id : ℚ) :
    removeTransaction (removeTransaction st store id).1 (removeTransaction st store id).2 id =
      removeTransaction st store id ∧
    ((∀ t ∈ st.transactions, t.id ≠ id) →
      (removeTransaction st store id).1.transactions = st.transactions) := by
  have hfilter : (st.transactions.filter (fun t => decide (t.id ≠ id))).filter
      (fun t => decide (t.id ≠ id)) = st.transactions.filter (fun t => decide (t.id ≠ id)) := by
    rw [List.filter_filter]
    simp
  constructor
  · simp only [removeTransaction, updateLocalStorage]
    rw [hfilter]
  · intro hall
    show st.transactions.filter (fun t => decide (t.id ≠ id)) = st.transactions
    exact List.filter_eq_self.mpr (fun t ht => by
      simp only [decide_eq_true_eq]
      exact hall t ht)

/-- C7 witness: removing an absent identifier from a concrete one-entry
ledger is a no-op on the sequence. -/
theorem removeTransaction_idempotent_witness :
    (removeTransaction ⟨[⟨5, "a", 1, "X"⟩], []⟩ emptyStore 3).1.transactions =
      [⟨5, "a", 1, "X"⟩] :=
  (removeTransaction_idempotent ⟨[⟨5, "a", 1, "X"⟩], []⟩ emptyStore 3).2 (by decide)

/-- C10: removal deletes every transaction carrying the identifier, not
only the first: membership in the resulting sequence is membership in
the old sequence with a different identifier, and a concrete ledger
holding two transactions that share identifier 5 is emptied by a single
removal of 5. -/
theorem removeTransaction_removes_all (st : LedgerState) (store : Store) (id : ℚ)
    (t : Transaction) :
    (t ∈ (removeTransaction st store id).1.transactions ↔
      t ∈ st.transactions ∧ t.id ≠ id) ∧
    (removeTransaction ⟨[⟨5, "a", 1, "X"⟩, ⟨5, "b", 2, "X"⟩], []⟩ emptyStore 5).1.transactions =
      [] := by
  constructor
  · show t ∈ st.transactions.filter (fun u => decide (u.id ≠ id)) ↔ _
    rw [List.mem_filter]
    simp only [decide_eq_true_eq]
  · show List.filter _ _ = _
    decide

theorem resolveCategory_spec (catSel : Option String) :
    resolveCategory catSel ≠ "" ∧
    ((catSel = none ∨ catSel = some "") → resolveCategory catSel = "Uncategorized") := by
  cases catSel with
  | none => exact ⟨by decide, fun _ => rfl⟩
  | some v =>
    by_cases hv : v = ""
    · subst hv
      exact ⟨by decide, fun _ => rfl⟩
    · refine ⟨?_, ?_⟩
      · show (if (if v = "" then "" else v) = "" then "Uncategorized" else
            if v = "" then "" else v) ≠ ""
        rw [if_neg hv, if_neg hv]
        exact hv
      · rintro (h | h)
        · exact absurd h (by simp)
        · injection h with h
          exact absurd h hv

theorem addTransaction_state_shape (st : LedgerState) (store : Store) (now : ℚ)
    (textRaw amountRaw kind : String) (catSel : Option String) :
    (addTransaction st store now textRaw amountRaw kind catSel).1 = st ∨
    ∃ t : Transaction, t.id = now ∧ t.category = resolveCategory catSel ∧
      (addTransaction st store now textRaw amountRaw kind catSel).1.transactions =
        st.transactions ++ [t] ∧
      (addTransaction st store now textRaw amountRaw kind catSel).1.categories =
        st.categories := by
  by_cases h : jsTrim textRaw = "" ∨ jsTrim amountRaw = ""
  · rw [addTransaction_empty st store now textRaw amountRaw kind catSel h]
    exact Or.inl rfl
  · cases hp : parseFloat (jsTrim amountRaw) with
    | none =>
      rw [addTransaction_invalid st store now textRaw amountRaw kind catSel h hp]
      exact Or.inl rfl
    | some x =>
      rw [addTransaction_success st store now textRaw amountRaw kind catSel x h hp]
      exact Or.inr ⟨_, rfl, rfl, rfl, rfl⟩

theorem applyOp_category_step (st : LedgerState) (store : Store) (op : Op)
    (hinv : ∀ t ∈ st.transactions, t.category ≠ "") :
    ∀ t ∈ (applyOp (st, store) op).1.transactions, t.category ≠ "" := by
  cases op with
  | add now textRaw amountRaw kind catSel =>
    rw [applyOp_add]
    rcases addTransaction_state_shape st store now textRaw amountRaw kind catSel with
      heq | ⟨u, hid, hcat, htr, _⟩
    · rw [heq]
      exact hinv
    · intro t ht
      rw [htr, List.mem_append] at ht
      rcases ht with ht | ht
      · exact hinv t ht
      · rw [List.mem_singleton] at ht
        subst ht
        rw [hcat]
        exact (resolveCategory_spec catSel).1
  | remove id =>
    rw [applyOp_remove]
    intro t ht
    rw [((removeTransaction_removes_all st store id t).1 : _)] at ht
    exact hinv t ht.1

/-- C9: every transaction constructed by `addTransaction` carries a
non-empty category, "Uncategorized" when no (or an empty) category is
supplied; consequently, in any state whose transactions all carry
non-empty categories, any sequence of add/remove operations preserves
that invariant. -/
theorem transaction_category_nonempty :
    (∀ (st : LedgerState) (store : Store) (now : ℚ) (textRaw amountRaw kind : String)
        (catSel : Option String) (t : Transaction),
      (addTransaction st store now textRaw amountRaw kind catSel).2.2 = Except.ok t →
      t.category ≠ "" ∧ ((catSel = none ∨ catSel = some "") → t.category = "Uncategorized")) ∧
    (∀ (ops : List Op) (st : LedgerState) (store : Store),
      (∀ t ∈ st.transactions, t.category ≠ "") →
      ∀ t ∈ (applyOps (st, store) ops).1.transactions, t.category ≠ "") := by
  constructor
  · intro st store now textRaw amountRaw kind catSel t hok
    by_cases h : jsTrim textRaw = "" ∨ jsTrim amountRaw = ""
    · rw [addTransaction_empty st store now textRaw amountRaw kind catSel h] at hok
      simp at hok
    · cases hp : parseFloat (jsTrim amountRaw) with
      | none =>
        rw [addTransaction_invalid st store now textRaw amountRaw kind catSel h hp] at hok
        simp at hok
      | some x =>
        rw [addTransaction_success st store now textRaw amountRaw kind catSel x h hp] at hok
        injection hok with hok
        subst hok
        show resolveCategory catSel ≠ "" ∧ _
        exact resolveCategory_spec catSel
  · intro ops
    induction ops with
    | nil => exact fun st store hinv => hinv
    | cons op ops ih =>
      intro st store hinv
      rw [applyOps_cons]
      have hstep := applyOp_category_step st store op hinv
      have : applyOp (st, store) op =
          ((applyOp (st, store) op).1, (applyOp (st, store) op).2) := rfl
      rw [this]
      exact ih (applyOp (st, store) op).1 (applyOp (st, store) op).2 hstep

/-- C9 witness: a concrete add with no category supplied yields the
sentinel, and the invariant holds for a concrete action sequence. -/
theorem transaction_category_nonempty_witness :
    ((⟨7, jsTrim "Misc",
        if ("expense" : String) = "expense" then
          -(mathAbs (partsVal ⟨false, ['5'], [], 0⟩))
        else mathAbs (partsVal ⟨false, ['5'], [], 0⟩),
        resolveCategory none⟩ : Transaction).category ≠ "" ∧
      ((none = (none : Option String) ∨ (none : Option String) = some "") →
        (⟨7, jsTrim "Misc",
          if ("expense" : String) = "expense" then
            -(mathAbs (partsVal ⟨false, ['5'], [], 0⟩))
          else mathAbs (partsVal ⟨false, ['5'], [], 0⟩),
          resolveCategory none⟩ : Transaction).category = "Uncategorized")) ∧
    (∀ t ∈ (applyOps (emptyLedger, emptyStore)
        [Op.add 7 "Misc" "5" "expense" none]).1.transactions, t.category ≠ "") :=
  ⟨transaction_category_nonempty.1 emptyLedger emptyStore 7 "Misc" "5" "expense" none _ rfl,
   transaction_category_nonempty.2 [Op.add 7 "Misc" "5" "expense" none] emptyLedger emptyStore
     (by intro t ht; exact absurd ht (by simp [emptyLedger]))⟩

theorem applyOps_ids_nodup (ops : List Op) :
    ∀ (st : LedgerState) (store : Store),
      (st.transactions.map (fun t => t.id)).Nodup →
      (addNows ops).Nodup →
      (∀ n ∈ addNows ops, n ∉ st.transactions.map (fun t => t.id)) →
      ((applyOps (st, store) ops).1.transactions.map (fun t => t.id)).Nodup := by
  induction ops with
  | nil => exact fun st store hnd _ _ => hnd
  | cons op ops ih =>
    intro st store hnd hnows hdisj
    rw [applyOps_cons]
    have hpair : applyOp (st, store) op =
        ((applyOp (st, store) op).1, (applyOp (st, store) op).2) := rfl
    rw [hpair]
    cases op with
    | add now textRaw amountRaw kind catSel =>
      have hnows' : (addNows ops).Nodup := (by
        rw [addNows] at hnows
        exact hnows.of_cons)
      have hhead : now ∉ addNows ops := (by
        rw [addNows] at hnows
        exact (List.nodup_cons.mp hnows).1)
      rcases addTransaction_state_shape st store now textRaw amountRaw kind catSel with
        heq | ⟨u, hid, hcat, htr, _⟩
      · apply ih
        · rw [applyOp_add, heq]
          exact hnd
        · exact hnows'
        · intro n hn
          rw [applyOp_add, heq]
          exact hdisj n (by rw [addNows]; exact List.mem_cons_of_mem _ hn)
      · have hids : ((applyOp (st, store)
            (Op.add now textRaw amountRaw kind catSel)).1.transactions.map (fun t => t.id)) =
            (st.transactions.map (fun t => t.id)) ++ [now] := by
          rw [applyOp_add, htr, List.map_append]
          simp [hid]
        apply ih
        · rw [hids]
          rw [List.nodup_append]
          refine ⟨hnd, List.nodup_singleton now, ?_⟩
          intro a ha hb
          rw [List.mem_singleton] at hb
          subst hb
          exact hdisj a (by rw [addNows]; exact List.mem_cons_self _ _) ha
        · exact hnows'
        · intro n hn
          rw [hids, List.mem_append, List.mem_singleton]
          rintro (h | h)
          · exact hdisj n (by rw [addNows]; exact List.mem_cons_of_mem _ hn) h
          · subst h
            exact hhead hn
    | remove id =>
      have hsub : ((applyOp (st, store) (Op.remove id)).1.transactions.map (fun t => t.id)).Sublist
          (st.transactions.map (fun t => t.id)) := by
        rw [applyOp_remove]
        exact List.Sublist.map _ (List.filter_sublist st.transactions)
      apply ih
      · exact hnd.sublist hsub
      · exact hnows
      · intro n hn hmem
        exact hdisj n hn (hsub.subset hmem)

/-- C6 counterexample: two adds whose `Date.now()` readings coincide
(two calls in the same millisecond) produce two transactions sharing
identifier 0, so identifiers in reachable states are not always
pairwise distinct. -/
theorem add_ids_not_distinct_cex :
    ¬ (((applyOps (emptyLedger, emptyStore)
        [Op.add 0 "a" "1" "income" none, Op.add 0 "b" "2" "income" none]).1.transactions.map
          (fun t => t.id)).Nodup) := by decide

/-- C6 amended: identifiers are the `Date.now()` readings of the add
calls, so starting from the empty ledger they are pairwise distinct
whenever those clock readings are pairwise distinct (the original
claim's unconditional uniqueness fails when two adds share a
millisecond, see `add_ids_not_distinct_cex`). -/
theorem add_ids_distinct_of_distinct_nows (ops : List Op) (store : Store)
    (h : (addNows ops).Nodup) :
    ((applyOps (emptyLedger, store) ops).1.transactions.map (fun t => t.id)).Nodup :=
  applyOps_ids_nodup ops emptyLedger store (by simp [emptyLedger]) h
    (by simp [emptyLedger])

/-- C6 witness: two adds at distinct clock readings yield distinct
identifiers. -/
theorem add_ids_distinct_of_distinct_nows_witness :
    (addNows [Op.add 0 "a" "1" "income" none, Op.add 1 "b" "2" "income" none]).Nodup ∧
    ((applyOps (emptyLedger, emptyStore)
        [Op.add 0 "a" "1" "income" none, Op.add 1 "b" "2" "income" none]).1.transactions.map
          (fun t => t.id)).Nodup :=
  ⟨by decide, add_ids_distinct_of_distinct_nows
    [Op.add 0 "a" "1" "income" none, Op.add 1 "b" "2" "income" none] emptyStore (by decide)⟩

theorem decodeTransaction_encodeTransaction (t : Transaction) :
    decodeTransaction (encodeTransaction t) = some t := rfl

theorem decode_encode_transactions (ts : List Transaction) :
    decodeTransactions (encodeTransactions ts) = some ts := by
  induction ts with
  | nil => rfl
  | cons t ts ih =>
    show (encodeTransaction t :: ts.map encodeTransaction).mapM decodeTransaction =
      some (t :: ts)
    rw [List.mapM_cons, decodeTransaction_encodeTransaction]
    have ihm : (ts.map encodeTransaction).mapM decodeTransaction = some ts := ih
    rw [ihm]
    rfl

/-- C8: persisting the snapshot after a mutation and reloading through
the constructor's restoration reproduces the transaction sequence and
the category set exactly, for every store whose categories cell is
consistent with the in-memory category list (the class never writes
that cell, and the constructor established the consistency). -/
theorem persist_load_roundtrip (st : LedgerState) (store : Store)
    (hcat : loadCategoriesTyped store.categoriesCell = some st.categories) :
    loadTyped (updateLocalStorage st store) = some st := by
  have htr : loadCollection (updateLocalStorage st store).transactionsCell =
      Except.ok (encodeTransactions st.transactions) := rfl
  have hcell : loadCollection (updateLocalStorage st store).categoriesCell =
      loadCollection store.categoriesCell := rfl
  cases hc : loadCollection store.categoriesCell with
  | error e =>
    exfalso
    simp only [loadCategoriesTyped, hc] at hcat
    exact Option.noConfusion hcat
  | ok cj =>
    have hdec : decodeCategories cj = some st.categories := by
      simp only [loadCategoriesTyped, hc] at hcat
      exact hcat
    simp only [loadTyped, loadState, htr, hcell, hc, decode_encode_transactions, hdec]

/-- C8 witness: a concrete ledger round-trips through the store. -/
theorem persist_load_roundtrip_witness :
    loadTyped (updateLocalStorage ⟨[⟨1, "Lunch", -5, "Food"⟩], ["Food"]⟩
        ⟨Stored.absent, Stored.val (Json.arr [Json.str "Food"])⟩) =
      some ⟨[⟨1, "Lunch", -5, "Food"⟩], ["Food"]⟩ :=
  persist_load_roundtrip ⟨[⟨1, "Lunch", -5, "Food"⟩], ["Food"]⟩
    ⟨Stored.absent, Stored.val (Json.arr [Json.str "Food"])⟩ rfl
